import Mathlib

/-!
Shallow embedding of the `mask_editor` C++ video-reading adapter
(`src/adapters/secondary/cpp_bindings/video_reader.h` and
`src/adapters/secondary/cpp_bindings/bindings.cpp`).

Pure data (structs, the `frame_to_numpy` copy loop, the pybind `__enter__` /
`__exit__` glue) is translated directly from the source.  The member function
bodies of `CppVideoReader` (`open`, `read_frame`, `seek`, `close`) are declared
in `video_reader.h` but their translation unit is not part of the repository,
so those operations are modelled from the specification, as marked in their
doc comments.  C++ `double` fields carrying timestamps and rates are embedded
as rationals; machine integers as `Int`; bytes (`uint8_t`) as `Fin 256`.
-/

namespace MaskEditor

/-- A byte, the element type of frame buffers (`uint8_t`). -/
abbrev Byte := Fin 256

/-- Media type of a container stream; the prober selects the first stream whose
media type is video. -/
inductive MediaType
  | video
  | audio
  | other
deriving DecidableEq, Repr

/-- `VideoMetadata` from `video_reader.h` lines 21-33.  `fps` and `duration`
are C++ `double`s, embedded as rationals; `std::optional` fields as `Option`. -/
structure VideoMetadata where
  width : Int
  height : Int
  fps : ℚ
  frame_count : Int
  duration : ℚ
  codec : String
  bit_rate : Option Int
  color_space : Option String
  bit_depth : Option Int
  has_audio : Bool
  timecode : Option String
deriving DecidableEq, Repr

/-- `Frame` from `video_reader.h` lines 38-45; `data` is the RGB24 byte
vector (`std::vector<uint8_t>`). -/
structure Frame where
  index : Int
  pts : Int
  dts : Option Int
  data : List Byte
  width : Int
  height : Int
deriving DecidableEq, Repr

/-- The numpy array built by `frame_to_numpy` (`bindings.cpp` lines 11-30):
its declared shape, its declared strides (in elements, which equal bytes for
`uint8_t`), and the flat storage buffer. -/
structure NumpyArray where
  shape : List Int
  strides : List Int
  buf : List Byte
deriving DecidableEq, Repr

/-- Element access of a 3-d `NumpyArray` at indices `(i, j, k)` through its
stride vector: the flat storage offset is `i*s0 + j*s1 + k*s2`. -/
def NumpyArray.at3 (a : NumpyArray) (i j k : Nat) : Option Byte :=
  match a.strides with
  | [s0, s1, s2] => a.buf[((i : Int) * s0 + (j : Int) * s1 + (k : Int) * s2).toNat]?
  | _ => none

/-- The body of the innermost copy loop of `frame_to_numpy` (`bindings.cpp`
line 24): `buf(i, j, k) = frame.data[idx++]`.  The write lands at flat offset
`i*(w*3) + j*3 + k` per the strides `(w*3, 3, 1)`; the read of
`frame.data[idx]` is Option-valued, so an out-of-bounds read yields `none`. -/
def copyBody (data : List Byte) (w i j k : Nat) (s : List Byte × Nat) :
    Option (List Byte × Nat) :=
  match data[s.2]? with
  | none => none
  | some v => some (s.1.set (i * (w * 3) + j * 3 + k) v, s.2 + 1)

/-- The `k` loop of `frame_to_numpy` (`bindings.cpp` line 23): `k` runs over
`0, 1, 2`. -/
def copyK (data : List Byte) (w i j : Nat) (s : List Byte × Nat) :
    Option (List Byte × Nat) :=
  (List.range 3).foldlM (fun s k => copyBody data w i j k s) s

/-- The `j` loop of `frame_to_numpy` (`bindings.cpp` line 22): `j` runs over
the columns `0 .. w-1`. -/
def copyJ (data : List Byte) (w i : Nat) (s : List Byte × Nat) :
    Option (List Byte × Nat) :=
  (List.range w).foldlM (fun s j => copyK data w i j s) s

/-- The `i` loop of `frame_to_numpy` (`bindings.cpp` line 21): `i` runs over
the rows `0 .. h-1`. -/
def copyI (data : List Byte) (h w : Nat) (s : List Byte × Nat) :
    Option (List Byte × Nat) :=
  (List.range h).foldlM (fun s i => copyJ data w i s) s

/-- The whole copy loop of `frame_to_numpy`: the freshly allocated destination
buffer holds `h*w*3` elements (modelled zero-initialised) and the running
source index `idx` starts at `0`. -/
def copyLoop (data : List Byte) (h w : Nat) : Option (List Byte) :=
  (copyI data h w (List.replicate (h * w * 3) (0 : Byte), 0)).map Prod.fst

/-- `frame_to_numpy` (`bindings.cpp` lines 11-30): allocates an array with
shape `{height, width, 3}` and strides `{width*3, 3, 1}`, then runs the copy
loop.  The loop indices are `py::ssize_t` counting up from `0`, so a negative
`height` or `width` yields zero iterations; hence `Int.toNat`. -/
def frame_to_numpy (f : Frame) : Option NumpyArray :=
  (copyLoop f.data f.height.toNat f.width.toNat).map
    (fun b => { shape := [f.height, f.width, 3],
                strides := [f.width * 3, 3, 1],
                buf := b })

/-- Invariant of the copy-loop state: the running index is `idx`, the
destination buffer keeps its length, agrees with `data` below `idx`, and is
still the initial buffer `init` from `idx` on. -/
def CopyInv (data init : List Byte) (s : List Byte × Nat) (idx : Nat) : Prop :=
  s.2 = idx ∧ s.1.length = init.length ∧
  (∀ m, m < idx → s.1[m]? = data[m]?) ∧
  (∀ m, idx ≤ m → s.1[m]? = init[m]?)

/-- Modelled from the spec: the decodable content behind an opened container.
The implementation of `CppVideoReader` (its `.cpp` translation unit) is not in
the repository; the spec describes the session as decoding a fixed stream of
frames in decode order, with metadata extracted at open time. -/
structure VideoFile where
  meta : VideoMetadata
  frames : List Frame
deriving DecidableEq

/-- Modelled from the spec: a media container as seen by the prober — the
media types of its streams, and the video content reached once a video stream
is selected. -/
structure Container where
  streams : List MediaType
  file : VideoFile
deriving DecidableEq

/-- Error classes of `open` per the spec: `OpenError` (file missing,
unreadable, or unrecognized container) and `NoVideoStreamError`. -/
inductive OpenErr
  | openError
  | noVideoStream
deriving DecidableEq, Repr

/-- The `CppVideoReader` state, following the private members of
`video_reader.h` lines 96-108: `format_ctx` models the `AVFormatContext*`
(null iff closed) together with the demuxer/decoder resources it roots;
`cursor` the implicit decode position of the codec state; `metadata` the
`std::unique_ptr<VideoMetadata>`. -/
structure Session where
  format_ctx : Option VideoFile
  cursor : Nat
  metadata : Option VideoMetadata
deriving DecidableEq

/-- `is_open` from `video_reader.h` line 94:
`bool is_open() const { return format_ctx_ != nullptr; }`. -/
def is_open (s : Session) : Bool := s.format_ctx.isSome

/-- Modelled from the spec: `CppVideoReader::open` (declared at
`video_reader.h` line 70, body not in the repository).  The environment `env`
maps a path to the container it denotes (`none` when the file cannot be
opened).  Per spec 4.1: open the container or fail with `OpenError`; select
the first stream whose media type is video or fail with `NoVideoStreamError`;
on success retain the decode-session state and the metadata; on any failure
roll back, leaving the session exactly as it was. -/
def openFn (env : String → Option Container) (s : Session) (path : String) :
    Session × Except OpenErr VideoMetadata :=
  match env path with
  | none => (s, .error .openError)
  | some c =>
    match c.streams.findIdx? (fun st => st == MediaType.video) with
    | none => (s, .error .noVideoStream)
    | some _ =>
      ({ format_ctx := some c.file, cursor := 0, metadata := some c.file.meta },
       .ok c.file.meta)

/-- Modelled from the spec: `CppVideoReader::read_frame` (declared at
`video_reader.h` line 77, body not in the repository).  Per spec 4.2: when the
cursor is at or before the requested index, decode forward, discarding
non-matching frames, until the index is reached or the stream ends; an index
beyond the last decodable frame yields `absent` (`none`), not an error; a past
index without a prior seek yields `absent`, never an unrelated later frame. -/
def read_frame (s : Session) (index : Nat) : Session × Option Frame :=
  match s.format_ctx with
  | none => (s, none)
  | some f =>
    if index < s.cursor then (s, none)
    else
      match f.frames[index]? with
      | some fr => ({ s with cursor := index + 1 }, some fr)
      | none => ({ s with cursor := f.frames.length }, none)

/-- Modelled from the spec: `CppVideoReader::seek` (declared at
`video_reader.h` line 84, body not in the repository).  Per spec 4.4: an
out-of-range target is reported as `false`, never an exception; otherwise the
container seeks backward-or-exact to a synchronization point at or before the
target timestamp, decoder buffers are flushed, and the call returns `true`
regardless of exact frame alignment. -/
def seek (s : Session) (t : ℚ) : Session × Bool :=
  match s.format_ctx with
  | none => (s, false)
  | some f =>
    if t < 0 ∨ f.meta.duration < t then (s, false)
    else ({ s with cursor := min (⌊t * f.meta.fps⌋.toNat) f.frames.length }, true)

/-- Modelled from the spec: `CppVideoReader::close` (declared at
`video_reader.h` line 89, body not in the repository).  Per spec 4.5 / 7:
releases all decoder/demuxer/conversion resources, never raises, and is
idempotent. -/
def close (s : Session) : Session :=
  { format_ctx := none, cursor := 0, metadata := none }

/-- `__enter__` from `bindings.cpp` lines 78-80: returns `self` unchanged. -/
def enterScope (s : Session) : Session := s

/-- `__exit__` from `bindings.cpp` lines 81-83: ignores the exception triple
`(exc_type, exc_value, traceback)` and calls `close()` on every exit path. -/
def exitScope (s : Session)
    (excType excVal excTb : Option String) : Session :=
  close s

/-- The setter exposed by `def_readwrite("width", &VideoMetadata::width)` in
`bindings.cpp` line 38: assigns the `width` field of a `VideoMetadata`. -/
def VideoMetadata.set_width (m : VideoMetadata) (v : Int) : VideoMetadata :=
  { m with width := v }

/-- Non-decreasing presentation timestamps along the decode order of a file's
stream — the stream-order property spec 8 asserts of sequential reads. -/
def PtsMono (f : VideoFile) : Prop :=
  f.frames.Pairwise (fun a b => a.pts ≤ b.pts)

/-- A heap of byte buffers, used to state aliasing facts about the binding
layer: an address is an index into the list of live buffers. -/
structure Heap where
  bufs : List (List Byte)
deriving DecidableEq

/-- Allocate a fresh buffer; its address is the next unused index. -/
def Heap.alloc (h : Heap) (b : List Byte) : Heap × Nat :=
  ({ bufs := h.bufs ++ [b] }, h.bufs.length)

/-- Read the buffer at an address, `none` when the address is not live. -/
def Heap.read (h : Heap) (a : Nat) : Option (List Byte) :=
  h.bufs[a]?

/-- Mutate one byte of the buffer at address `a` (a caller writing into an
exposed numpy buffer). -/
def Heap.writeByte (h : Heap) (a i : Nat) (v : Byte) : Heap :=
  { bufs := h.bufs.set a ((h.bufs.getD a []).set i v) }

/-- `frame_to_numpy` viewed at the heap level: the copy loop produces the
bytes, and the resulting numpy storage is a freshly allocated buffer — the
source `py::array_t` constructor allocates new storage, and the loop copies
`frame.data` into it. -/
def frame_to_numpy_heap (h : Heap) (f : Frame) : Option (Heap × Nat) :=
  (copyLoop f.data f.height.toNat f.width.toNat).map (fun b => h.alloc b)

/-- A sample metadata value (spec 8's concrete scenario: 10 s, 30 fps,
640×480, 300 frames). -/
def sampleMeta : VideoMetadata :=
  { width := 640, height := 480, fps := 30, frame_count := 300,
    duration := 10, codec := "h264", bit_rate := none, color_space := none,
    bit_depth := none, has_audio := false, timecode := none }

/-- A sample 2×1 RGB frame with six data bytes. -/
def sampleFrame0 : Frame :=
  { index := 0, pts := 0, dts := none,
    data := [10, 20, 30, 40, 50, 60], width := 2, height := 1 }

/-- A second sample frame, later pts. -/
def sampleFrame1 : Frame :=
  { index := 1, pts := 100, dts := some 90,
    data := [1, 2, 3, 4, 5, 6], width := 2, height := 1 }

/-- A sample opened file with two frames. -/
def sampleFile : VideoFile :=
  { meta := sampleMeta, frames := [sampleFrame0, sampleFrame1] }

/-- A sample open session positioned at the start. -/
def sampleSession : Session :=
  { format_ctx := some sampleFile, cursor := 0, metadata := some sampleMeta }

/-- A freshly constructed, closed session. -/
def closedSession : Session :=
  { format_ctx := none, cursor := 0, metadata := none }

/-- One innermost-loop iteration succeeds and extends the copy invariant by
one position, provided the write offset coincides with the running index and
the read is in bounds. -/
theorem copyBody_step (data init : List Byte) (w i j k idx : Nat)
    (s : List Byte × Nat) (hs : CopyInv data init s idx)
    (hoff : i * (w * 3) + j * 3 + k = idx)
    (hidx : idx < data.length) (hlen : init.length = data.length) :
    ∃ s2, copyBody data w i j k s = some s2 ∧ CopyInv data init s2 (idx + 1) := by
  obtain ⟨h2, hlenb, hlow, hhigh⟩ := hs
  have hd : data[s.2]? = some data[idx] := by
    rw [h2]; exact List.getElem?_eq_getElem hidx
  refine ⟨(s.1.set (i * (w * 3) + j * 3 + k) data[idx], s.2 + 1), ?_, ?_, ?_, ?_, ?_⟩
  · simp only [copyBody, hd]
  · simp [h2]
  · simp [hlenb]
  · intro m hm
    rw [hoff, List.getElem?_set]
    rcases Nat.lt_succ_iff_lt_or_eq.mp hm with hlt | heq
    · simp only [Nat.ne_of_gt hlt, if_false]
      exact hlow m hlt
    · subst heq
      simp only [if_pos rfl, hlenb, hlen, hidx, if_true]
      exact (List.getElem?_eq_getElem hidx).symm
  · intro m hm
    rw [hoff, List.getElem?_set]
    have hne : idx ≠ m := by omega
    simp only [hne, if_false]
    exact hhigh m (by omega)

/-- The three iterations of the `k` loop succeed and advance the invariant by
three positions, provided the loop starts aligned at `i*(w*3) + j*3`. -/
theorem copyK_step (data init : List Byte) (w i j idx : Nat)
    (s : List Byte × Nat) (hs : CopyInv data init s idx)
    (hoff : i * (w * 3) + j * 3 = idx)
    (hidx : idx + 3 ≤ data.length) (hlen : init.length = data.length) :
    ∃ s2, copyK data w i j s = some s2 ∧ CopyInv data init s2 (idx + 3) := by
  obtain ⟨s1, he1, hi1⟩ :=
    copyBody_step data init w i j 0 idx s hs (by rw [← hoff, Nat.add_zero]) (by omega) hlen
  obtain ⟨s2, he2, hi2⟩ :=
    copyBody_step data init w i j 1 (idx + 1) s1 hi1 (by rw [← hoff]) (by omega) hlen
  obtain ⟨s3, he3, hi3⟩ :=
    copyBody_step data init w i j 2 (idx + 2) s2 hi2 (by rw [← hoff]) (by omega) hlen
  refine ⟨s3, ?_, ?_⟩
  · have h3 : List.range 3 = [0, 1, 2] := rfl
    simp [copyK, h3, he1, he2, he3]
  · have h33 : idx + 1 + 1 + 1 = idx + 3 := by omega
    rw [← h33]; exact hi3

/-- The first `n` iterations of the `j` loop succeed and carry the invariant
from the start of row `i` to column `n`, while the whole row fits in `data`. -/
theorem copyJ_aux (data init : List Byte) (w i : Nat) (n : Nat)
    (s : List Byte × Nat) (hs : CopyInv data init s (i * (w * 3)))
    (hb : i * (w * 3) + w * 3 ≤ data.length)
    (hlen : init.length = data.length) :
    n ≤ w →
    ∃ s2, (List.range n).foldlM (fun s j => copyK data w i j s) s = some s2 ∧
      CopyInv data init s2 (i * (w * 3) + n * 3) := by
  induction n with
  | zero =>
    intro _
    refine ⟨s, by simp, ?_⟩
    simpa using hs
  | succ m ih =>
    intro hn
    obtain ⟨s1, he1, hi1⟩ := ih (Nat.le_of_succ_le hn)
    have hb2 : i * (w * 3) + m * 3 + 3 ≤ data.length := by
      have h1 : m * 3 + 3 ≤ w * 3 := by omega
      calc i * (w * 3) + m * 3 + 3 = i * (w * 3) + (m * 3 + 3) := by
            rw [Nat.add_assoc]
        _ ≤ i * (w * 3) + w * 3 := Nat.add_le_add_left h1 _
        _ ≤ data.length := hb
    obtain ⟨s2, he2, hi2⟩ :=
      copyK_step data init w i m (i * (w * 3) + m * 3) s1 hi1 rfl hb2 hlen
    refine ⟨s2, ?_, ?_⟩
    · rw [List.range_succ, List.foldlM_append, he1]
      simp [he2]
    · have heq : i * (w * 3) + m * 3 + 3 = i * (w * 3) + (m + 1) * 3 := by ring
      rw [← heq]; exact hi2

/-- The first `n` iterations of the `i` loop succeed and carry the invariant
from the start of the buffer to the end of row `n - 1`. -/
theorem copyI_aux (data init : List Byte) (hh ww : Nat) (n : Nat)
    (s : List Byte × Nat) (hs : CopyInv data init s 0)
    (hdl : data.length = hh * (ww * 3))
    (hlen : init.length = data.length) :
    n ≤ hh →
    ∃ s2, (List.range n).foldlM (fun s i => copyJ data ww i s) s = some s2 ∧
      CopyInv data init s2 (n * (ww * 3)) := by
  induction n with
  | zero =>
    intro _
    refine ⟨s, by simp, ?_⟩
    simpa using hs
  | succ m ih =>
    intro hn
    obtain ⟨s1, he1, hi1⟩ := ih (Nat.le_of_succ_le hn)
    have hb : m * (ww * 3) + ww * 3 ≤ data.length := by
      have h1 : (m + 1) * (ww * 3) ≤ hh * (ww * 3) :=
        Nat.mul_le_mul_right _ hn
      calc m * (ww * 3) + ww * 3 = (m + 1) * (ww * 3) := by ring
        _ ≤ hh * (ww * 3) := h1
        _ = data.length := hdl.symm
    obtain ⟨s2, he2, hi2⟩ := copyJ_aux data init ww m ww s1 hi1 hb hlen le_rfl
    refine ⟨s2, ?_, ?_⟩
    · rw [List.range_succ, List.foldlM_append, he1]
      simpa [copyJ] using he2
    · have heq : m * (ww * 3) + ww * 3 = (m + 1) * (ww * 3) := by ring
      rw [← heq]; exact hi2

/-- Main copy-loop correctness: when the frame data has exactly `h*w*3`
bytes, every read of the loop is in bounds and the destination buffer ends up
byte-for-byte equal to the source data. -/
theorem copyLoop_eq (data : List Byte) (hh ww : Nat)
    (hdl : data.length = hh * (ww * 3)) :
    copyLoop data hh ww = some data := by
  set init : List Byte := List.replicate (hh * ww * 3) 0 with hinit
  have hlen : init.length = data.length := by
    simp [hinit, hdl, Nat.mul_assoc]
  have hs : CopyInv data init (init, 0) 0 := by
    refine ⟨rfl, rfl, ?_, ?_⟩
    · intro m hm; omega
    · intro m _; rfl
  obtain ⟨s2, he, hi⟩ := copyI_aux data init hh ww hh (init, 0) hs hdl hlen le_rfl
  have hrun : copyI data hh ww (init, 0) = some s2 := by
    simpa [copyI] using he
  rw [copyLoop, ← hinit, hrun]
  obtain ⟨h2, hlb, hlow, hhigh⟩ := hi
  have hbuf : s2.1 = data := by
    apply List.ext_getElem?
    intro m
    by_cases hm : m < data.length
    · exact hlow m (by rw [← hdl]; exact hm)
    · rw [List.getElem?_eq_none (by omega),
        List.getElem?_eq_none (le_of_not_lt hm)]
  simp [hbuf]

/-- C1: for every Frame whose data buffer has length width*height*3, the
buffer exposed by `frame_to_numpy` is a 3-d array of bytes with shape
(height, width, 3) and strides (width*3, 3, 1), whose element at (i, j, k)
equals byte number i*width*3 + j*3 + k of the frame's data — standard
row-major packed RGB with no padding. -/
theorem frame_buffer_layout (f : Frame)
    (hw : 0 ≤ f.width) (hh : 0 ≤ f.height)
    (hd : f.data.length = f.width.toNat * f.height.toNat * 3) :
    frame_to_numpy f =
      some { shape := [f.height, f.width, 3],
             strides := [f.width * 3, 3, 1], buf := f.data } ∧
    ∀ arr i j k, frame_to_numpy f = some arr →
      i < f.height.toNat → j < f.width.toNat → k < 3 →
      arr.at3 i j k = f.data[i * (f.width.toNat * 3) + j * 3 + k]? := by
  have hcl : copyLoop f.data f.height.toNat f.width.toNat = some f.data :=
    copyLoop_eq f.data _ _ (by rw [hd]; ring)
  have hmain : frame_to_numpy f =
      some { shape := [f.height, f.width, 3],
             strides := [f.width * 3, 3, 1], buf := f.data } := by
    simp [frame_to_numpy, hcl]
  refine ⟨hmain, ?_⟩
  intro arr i j k harr hi hj hk
  have harr2 : arr =
      { shape := [f.height, f.width, 3],
        strides := [f.width * 3, 3, 1], buf := f.data } := by
    rw [hmain] at harr
    exact (Option.some.inj harr).symm
  subst harr2
  simp only [NumpyArray.at3]
  have hidx : ((i : Int) * (f.width * 3) + (j : Int) * 3 + (k : Int) * 1).toNat
      = i * (f.width.toNat * 3) + j * 3 + k := by
    rw [← Int.toNat_of_nonneg hw]
    have hcast : (i : Int) * ((f.width.toNat : Int) * 3) + (j : Int) * 3
        + (k : Int) * 1
        = ((i * (f.width.toNat * 3) + j * 3 + k : Nat) : Int) := by
      push_cast; ring
    rw [hcast, Int.toNat_natCast, Int.toNat_natCast]
  rw [hidx]

/-- C10: for every Frame with non-negative dimensions whose data length is
exactly width*height*3, every element access of the copy loop is in bounds:
the Option-returning embedding of the indexing never reaches the
out-of-bounds branch. -/
theorem copy_loop_in_bounds (f : Frame)
    (hw : 0 ≤ f.width) (hh : 0 ≤ f.height)
    (hd : f.data.length = f.width.toNat * f.height.toNat * 3) :
    (copyLoop f.data f.height.toNat f.width.toNat).isSome = true := by
  rw [copyLoop_eq f.data _ _ (by rw [hd]; ring)]
  rfl

/-- C9: the buffer exposed for a Frame is a fresh owned copy — its heap
address is new, allocating it leaves every live buffer unchanged, and
mutating the exposed buffer leaves the frame's stored bytes and all internal
buffers unchanged. -/
theorem frame_copy_no_alias (h : Heap) (f : Frame) (h2 : Heap) (addr : Nat)
    (heq : frame_to_numpy_heap h f = some (h2, addr)) :
    h.read addr = none ∧
    (∀ a, a ≠ addr → h2.read a = h.read a) ∧
    (∀ i v a, a ≠ addr → (h2.writeByte addr i v).read a = h.read a) := by
  unfold frame_to_numpy_heap at heq
  cases hcl : copyLoop f.data f.height.toNat f.width.toNat with
  | none => rw [hcl] at heq; simp at heq
  | some b =>
    rw [hcl] at heq
    have hpair : Heap.alloc h b = (h2, addr) := by
      simpa using heq
    rw [Heap.alloc] at hpair
    injection hpair with ha hb
    subst ha
    subst hb
    have hmid : ∀ a, a ≠ h.bufs.length → (h.bufs ++ [b])[a]? = h.bufs[a]? := by
      intro a ha
      rw [List.getElem?_append]
      by_cases hlt : a < h.bufs.length
      · rw [if_pos hlt]
      · rw [if_neg hlt, List.getElem?_eq_none (le_of_not_lt hlt)]
        refine List.getElem?_eq_none ?_
        simp only [List.length_cons, List.length_nil]
        omega
    refine ⟨List.getElem?_eq_none le_rfl, fun a ha => hmid a ha,
      fun i v a ha => ?_⟩
    show ((h.bufs ++ [b]).set h.bufs.length _)[a]? = h.bufs[a]?
    rw [List.getElem?_set, if_neg (fun hcon => ha hcon.symm)]
    exact hmid a ha

/-- Computation rule for read_frame on an open session. -/
theorem read_frame_open (s : Session) (f : VideoFile) (index : Nat)
    (hopen : s.format_ctx = some f) :
    read_frame s index =
      if index < s.cursor then (s, none)
      else
        match f.frames[index]? with
        | some fr => ({ s with cursor := index + 1 }, some fr)
        | none => ({ s with cursor := f.frames.length }, none) := by
  unfold read_frame
  rw [hopen]

/-- read_frame never touches the format context: the session stays attached
to the same file. -/
theorem read_frame_format_ctx (s : Session) (index : Nat) :
    (read_frame s index).1.format_ctx = s.format_ctx := by
  cases hfc : s.format_ctx with
  | none => simp [read_frame, hfc]
  | some f =>
    by_cases hc : index < s.cursor
    · simp [read_frame, hfc, hc]
    · cases hg : f.frames[index]? with
      | none => simp [read_frame, hfc, hc, hg]
      | some fr => simp [read_frame, hfc, hc, hg]

/-- Whenever read_frame on an open session returns a frame, that frame is the
stream's frame at exactly the requested index. -/
theorem read_frame_result (s : Session) (f : VideoFile) (index : Nat)
    (fr : Frame) (hopen : s.format_ctx = some f)
    (h : (read_frame s index).2 = some fr) :
    ∃ hlt : index < f.frames.length,
      fr = f.frames[index] ∧ ¬index < s.cursor := by
  by_cases hc : index < s.cursor
  · rw [read_frame_open s f index hopen, if_pos hc] at h
    simp at h
  · cases hg : f.frames[index]? with
    | none =>
      rw [read_frame_open s f index hopen, if_neg hc, hg] at h
      simp at h
    | some fr2 =>
      rw [read_frame_open s f index hopen, if_neg hc, hg] at h
      have hfr : fr2 = fr := by simpa using h
      obtain ⟨hlt, hfr2⟩ := List.getElem?_eq_some.mp hg
      exact ⟨hlt, by rw [← hfr, ← hfr2], hc⟩

/-- C2: for every open session and every index beyond the last decodable
frame, read_frame returns absent — never an error, never a wraparound. -/
theorem read_frame_beyond (s : Session) (f : VideoFile) (index : Nat)
    (hopen : s.format_ctx = some f) (hbeyond : f.frames.length ≤ index) :
    (read_frame s index).2 = none := by
  by_cases hc : index < s.cursor
  · simp [read_frame, hopen, hc]
  · simp [read_frame, hopen, hc, List.getElem?_eq_none hbeyond]

/-- C3: a failed open retains no resource — the session state is exactly what
it was before the call, and in particular a closed session stays closed. -/
theorem open_atomic (env : String → Option Container) (s : Session)
    (path : String) (e : OpenErr)
    (hfail : (openFn env s path).2 = .error e) :
    (openFn env s path).1 = s ∧
    (is_open s = false → is_open (openFn env s path).1 = false) := by
  have hres : (openFn env s path).1 = s := by
    unfold openFn at hfail ⊢
    split at hfail <;> try rfl
    split at hfail <;> try rfl
    simp at hfail
  exact ⟨hres, fun hcl => by rw [hres]; exact hcl⟩

/-- C4: on an open session, seeking to a timestamp within [0, duration]
returns true; an out-of-range target is reported as the boolean false (seek
is a total function into Bool, so it never raises). -/
theorem seek_spec (s : Session) (f : VideoFile) (t : ℚ)
    (hopen : s.format_ctx = some f) :
    ((0 ≤ t ∧ t ≤ f.meta.duration) → (seek s t).2 = true) ∧
    (f.meta.duration < t → (seek s t).2 = false) := by
  constructor
  · rintro ⟨h0, hd⟩
    have hcond : ¬(t < 0 ∨ f.meta.duration < t) := by
      push_neg
      exact ⟨h0, hd⟩
    simp [seek, hopen, hcond]
  · intro hd
    simp only [seek, hopen]
    rw [if_pos (Or.inr hd)]

/-- C5: close is idempotent — composing close with itself equals a single
close, close never raises (it is a total function), and after any close the
session reports not open. -/
theorem close_idempotent (s : Session) :
    close (close s) = close s ∧ is_open (close s) = false :=
  ⟨rfl, rfl⟩

/-- C6: entering a scope returns the same session handle, and exiting the
scope invokes close regardless of the exception triple, so on every scope
exit path the session ends closed. -/
theorem scope_exit_closes (s : Session) (excType excVal excTb : Option String) :
    enterScope s = s ∧
    exitScope s excType excVal excTb = close s ∧
    is_open (exitScope s excType excVal excTb) = false :=
  ⟨rfl, rfl, rfl⟩

/-- C7 counterexample: the binding layer exposes VideoMetadata fields with
def_readwrite, so an operation of the program (the exposed width setter)
changes a field of a produced metadata instance — immutability as claimed
does not hold at a concrete input. -/
theorem metadata_mutable_counterexample :
    (VideoMetadata.set_width sampleMeta 100).width ≠ sampleMeta.width := by
  decide

/-- C7 amended: the core session operations read_frame and seek never modify
the metadata snapshot held by the session; immutability is not enforced
against the read-write field bindings exposed to the caller. -/
theorem metadata_preserved_by_core_ops (s : Session) (i : Nat) (t : ℚ) :
    (read_frame s i).1.metadata = s.metadata ∧
    (seek s t).1.metadata = s.metadata := by
  constructor
  · cases hfc : s.format_ctx with
    | none => simp [read_frame, hfc]
    | some f =>
      by_cases hc : i < s.cursor
      · simp [read_frame, hfc, hc]
      · cases hg : f.frames[i]? with
        | none => simp [read_frame, hfc, hc, hg]
        | some fr => simp [read_frame, hfc, hc, hg]
  · cases hfc : s.format_ctx with
    | none => simp [seek, hfc]
    | some f =>
      by_cases hc : t < 0 ∨ f.meta.duration < t
      · simp [seek, hfc, hc]
      · simp [seek, hfc, hc]

/-- C8: in one forward pass over an open session whose stream has
non-decreasing presentation timestamps in decode order, reading index i and
then index j with i < j yields frames with pts of frame i at most pts of
frame j. -/
theorem read_frame_pts_mono (s : Session) (f : VideoFile) (i j : Nat)
    (fr1 fr2 : Frame)
    (hopen : s.format_ctx = some f) (hmono : PtsMono f) (hij : i < j)
    (h1 : (read_frame s i).2 = some fr1)
    (h2 : (read_frame (read_frame s i).1 j).2 = some fr2) :
    fr1.pts ≤ fr2.pts := by
  obtain ⟨hi, hfr1, -⟩ := read_frame_result s f i fr1 hopen h1
  have hfc1 : (read_frame s i).1.format_ctx = some f := by
    rw [read_frame_format_ctx]; exact hopen
  obtain ⟨hj, hfr2, -⟩ := read_frame_result (read_frame s i).1 f j fr2 hfc1 h2
  rw [hfr1, hfr2]
  exact List.pairwise_iff_getElem.mp hmono i j hi hj hij

/-- Witness for C1: the layout theorem evaluated on the concrete 2×1 frame. -/
theorem frame_buffer_layout_witness :
    (0 ≤ sampleFrame0.width ∧ 0 ≤ sampleFrame0.height ∧
     sampleFrame0.data.length
       = sampleFrame0.width.toNat * sampleFrame0.height.toNat * 3) ∧
    (frame_to_numpy sampleFrame0 =
       some { shape := [sampleFrame0.height, sampleFrame0.width, 3],
              strides := [sampleFrame0.width * 3, 3, 1],
              buf := sampleFrame0.data } ∧
     ∀ arr i j k, frame_to_numpy sampleFrame0 = some arr →
       i < sampleFrame0.height.toNat → j < sampleFrame0.width.toNat → k < 3 →
       arr.at3 i j k
         = sampleFrame0.data[i * (sampleFrame0.width.toNat * 3) + j * 3 + k]?) :=
  ⟨⟨by decide, by decide, by decide⟩,
   frame_buffer_layout sampleFrame0 (by decide) (by decide) (by decide)⟩

/-- Witness for C2: reading index 5 of the two-frame sample file is absent. -/
theorem read_frame_beyond_witness :
    (sampleSession.format_ctx = some sampleFile ∧
     sampleFile.frames.length ≤ 5) ∧
    (read_frame sampleSession 5).2 = none :=
  ⟨⟨rfl, by decide⟩,
   read_frame_beyond sampleSession sampleFile 5 rfl (by decide)⟩

/-- Witness for C3: a failed open of a missing path leaves the closed sample
session untouched. -/
theorem open_atomic_witness :
    (openFn (fun _ => none) closedSession "missing.mp4").2
        = .error .openError ∧
    ((openFn (fun _ => none) closedSession "missing.mp4").1 = closedSession ∧
     (is_open closedSession = false →
       is_open (openFn (fun _ => none) closedSession "missing.mp4").1 = false)) :=
  ⟨rfl, open_atomic (fun _ => none) closedSession "missing.mp4" .openError rfl⟩

/-- Witness for C4: on the 10-second sample file, seeking to 1/2 succeeds and
seeking to 20 reports false. -/
theorem seek_spec_witness :
    sampleSession.format_ctx = some sampleFile ∧
    (seek sampleSession (1 / 2)).2 = true ∧
    (seek sampleSession 20).2 = false :=
  ⟨rfl,
   (seek_spec sampleSession sampleFile (1 / 2) rfl).1
     (by constructor <;> norm_num [sampleFile, sampleMeta]),
   (seek_spec sampleSession sampleFile 20 rfl).2
     (by norm_num [sampleFile, sampleMeta])⟩

/-- Witness for C8: a forward pass over the sample file reads frames 0 and 1
with non-decreasing pts. -/
theorem read_frame_pts_mono_witness :
    (sampleSession.format_ctx = some sampleFile ∧ PtsMono sampleFile ∧
     (read_frame sampleSession 0).2 = some sampleFrame0 ∧
     (read_frame (read_frame sampleSession 0).1 1).2 = some sampleFrame1) ∧
    sampleFrame0.pts ≤ sampleFrame1.pts :=
  ⟨⟨rfl, by unfold PtsMono; decide, by decide, by decide⟩,
   read_frame_pts_mono sampleSession sampleFile 0 1 sampleFrame0 sampleFrame1
     rfl (by unfold PtsMono; decide) (by decide) (by decide) (by decide)⟩

/-- Witness for C9: exposing the sample frame over a heap holding its stored
bytes allocates address 1, fresh and alias-free. -/
theorem frame_copy_no_alias_witness :
    frame_to_numpy_heap { bufs := [sampleFrame0.data] } sampleFrame0
        = some ({ bufs := [sampleFrame0.data, sampleFrame0.data] }, 1) ∧
    (Heap.read { bufs := [sampleFrame0.data] } 1 = none ∧
     (∀ a, a ≠ 1 →
       Heap.read { bufs := [sampleFrame0.data, sampleFrame0.data] } a
         = Heap.read { bufs := [sampleFrame0.data] } a) ∧
     (∀ i v a, a ≠ 1 →
       (Heap.writeByte { bufs := [sampleFrame0.data, sampleFrame0.data] } 1 i v).read a
         = Heap.read { bufs := [sampleFrame0.data] } a)) :=
  ⟨by decide,
   frame_copy_no_alias { bufs := [sampleFrame0.data] } sampleFrame0
     { bufs := [sampleFrame0.data, sampleFrame0.data] } 1 (by decide)⟩

/-- Witness for C10: the copy loop over the concrete 2×1 frame stays in
bounds. -/
theorem copy_loop_in_bounds_witness :
    (0 ≤ sampleFrame0.width ∧ 0 ≤ sampleFrame0.height ∧
     sampleFrame0.data.length
       = sampleFrame0.width.toNat * sampleFrame0.height.toNat * 3) ∧
    (copyLoop sampleFrame0.data sampleFrame0.height.toNat
        sampleFrame0.width.toNat).isSome = true :=
  ⟨⟨by decide, by decide, by decide⟩,
   copy_loop_in_bounds sampleFrame0 (by decide) (by decide) (by decide)⟩

end MaskEditor
